import Mathlib

/-!
# Verification of the `ExitoPointsExchange` selection/budget controller

Shallow embedding of `src/Proyecto_JS/pickproduct/smain.ts`.

The TypeScript class `ExitoPointsExchange` owns three pieces of state:
`availablePoints : number` (initialised to 7000), `selectedProducts : Set<string>`
and `products : Map<string, Product>`, plus a reference to the confirmation
button whose `disabled` flag it drives.  We embed:

* the JS `Map<string, Product>` as an insertion-ordered association list
  `List Product` keyed by `Product.id` (JS `Map.set` overwrites the value of
  an existing key in place, otherwise appends);
* the JS `Set<string>` as an insertion-ordered duplicate-free `List String`
  (`Set.add` appends only if absent, `Set.delete` removes the occurrence);
* DOM writes (class lists, `innerHTML` labels, the points display text) are
  pure output effects with no feedback into controller state, so they are not
  part of the state; the one DOM-held bit the controller also *reads* through
  its click guard, `confirmButton.disabled`, is kept in the state as
  `confirmDisabled`;
* the `setTimeout` continuation of `processExchange` as a separate step
  `processExchangeComplete`; `pendingExchange` records that the continuation
  has been scheduled and not yet fired (the implicit "processing" window).
-/

/-- Embeds the TS interface `Product { id: string; points: number; selected: boolean }`.
Costs in this page's markup are non-negative integers, so `points : Nat`. -/
structure Product where
  id : String
  points : Nat
  selected : Bool
  deriving Repr, DecidableEq

/-- The controller state of `ExitoPointsExchange`. -/
structure ExchangeState where
  availablePoints : Nat
  selectedProducts : List String
  products : List Product
  confirmDisabled : Bool
  pendingExchange : Bool
  deriving Repr, DecidableEq

/-- `this.products.get(productId)`: lookup in the insertion-ordered map. -/
def findProduct (ps : List Product) (productId : String) : Option Product :=
  ps.find? (fun p => p.id == productId)

/-- `this.products.set(id, p)`: overwrite the entry of an existing key,
otherwise append (JS `Map.set` semantics). -/
def mapSet (ps : List Product) (p : Product) : List Product :=
  if ps.any (fun q => q.id == p.id) then
    ps.map (fun q => if q.id == p.id then p else q)
  else
    ps ++ [p]

/-- `this.selectedProducts.add(id)`: JS `Set.add` appends only if absent. -/
def setAdd (l : List String) (a : String) : List String :=
  if a ∈ l then l else l ++ [a]

/-- Mutating `product.selected = b` through the reference obtained from
`this.products.get(productId)`: the entry keyed `productId` gets flag `b`. -/
def setSelected (ps : List Product) (productId : String) (b : Bool) : List Product :=
  ps.map (fun q => if q.id == productId then { q with selected := b } else q)

/-- Embeds `calculateTotalPoints`: fold over `selectedProducts`, adding the
points of each id found in `products` and skipping missing ids. -/
def calculateTotalPoints (st : ExchangeState) : Nat :=
  st.selectedProducts.foldl
    (fun total productId =>
      match findProduct st.products productId with
      | some product => total + product.points
      | none => total)
    0

/-- Embeds `updateConfirmButton` (state part): `hasSelection = size > 0`,
`confirmButton.disabled = !hasSelection`.  The `innerHTML` label it also
writes is display-only. -/
def updateConfirmButton (st : ExchangeState) : ExchangeState :=
  { st with confirmDisabled := !(st.selectedProducts.length > 0) }

/-- The branch body of `toggleProductSelection` once the product is found.
Selected: delete from the set and clear the flag.  Unselected: guard
`totalSelectedPoints + product.points <= availablePoints`; on success add to
the set and set the flag, on failure only transient feedback
(`showInsufficientPointsFeedback` is display-only). -/
def toggleBranch (product : Product) (productId : String) (st : ExchangeState) : ExchangeState :=
  if product.selected then
    { st with
      selectedProducts := st.selectedProducts.erase productId,
      products := setSelected st.products productId false }
  else
    if calculateTotalPoints st + product.points ≤ st.availablePoints then
      { st with
        selectedProducts := setAdd st.selectedProducts productId,
        products := setSelected st.products productId true }
    else
      st

/-- Embeds `toggleProductSelection(productId, element)`.  Unknown id: early
return (`if (!product) return`).  Otherwise the selected/unselected branch
runs and both paths end in `updateConfirmButton` (and `updatePointsDisplay`,
which is display-only). -/
def toggleProductSelection (productId : String) (st : ExchangeState) : ExchangeState :=
  match findProduct st.products productId with
  | none => st
  | some product => updateConfirmButton (toggleBranch product productId st)

/-- Embeds the synchronous part of `processExchange`: the button is put in
the disabled "Procesando..." state and the completion is scheduled. -/
def processExchangeStart (st : ExchangeState) : ExchangeState :=
  { st with confirmDisabled := true, pendingExchange := true }

/-- Embeds the `setTimeout` body of `processExchange`, in source order:
clear `selectedProducts`; clear every product's `selected` flag; only then
`availablePoints -= calculateTotalPoints()`; finally `updateConfirmButton`
(the class-list and points-display writes are display-only). -/
def processExchangeComplete (st : ExchangeState) : ExchangeState :=
  let st1 : ExchangeState := { st with selectedProducts := [] }
  let st2 : ExchangeState :=
    { st1 with products := st1.products.map (fun p => { p with selected := false }) }
  let st3 : ExchangeState :=
    { st2 with availablePoints := st2.availablePoints - calculateTotalPoints st2 }
  let st4 := updateConfirmButton st3
  { st4 with pendingExchange := false }

/-- Embeds the confirm button's click listener together with
`handleConfirmSelection`: the listener runs only `if (!this.confirmButton.disabled)`;
`handleConfirmSelection` builds a summary (display-only) and calls
`processExchange` exactly when the user accepts the blocking `confirm` dialog,
whose answer is the `userAccepts` input. -/
def handleConfirmClick (userAccepts : Bool) (st : ExchangeState) : ExchangeState :=
  if st.confirmDisabled then st
  else if userAccepts then processExchangeStart st
  else st

/-- Embeds `initProducts` + the tail of `init` for a well-formed markup: each
product card contributes `(id, points)`; every product starts `selected = false`;
`availablePoints = 7000`; `updateConfirmButton` runs on the empty selection. -/
def initState (catalog : List (String × Nat)) : ExchangeState :=
  updateConfirmButton
    { availablePoints := 7000
      selectedProducts := []
      products := catalog.foldl
        (fun ps c => mapSet ps { id := c.1, points := c.2, selected := false }) []
      confirmDisabled := true
      pendingExchange := false }

/-- The interaction events that mutate controller state: a card click
(`toggleProductSelection`), a confirm-button click carrying the user's answer
to the dialog (`handleConfirmClick`), a direct `processExchange`, and the
firing of its scheduled completion. -/
inductive Op where
  | toggle (productId : String)
  | confirmClick (userAccepts : Bool)
  | startExchange
  | completeExchange
  deriving Repr, DecidableEq

/-- One event-handler step. -/
def step (op : Op) (st : ExchangeState) : ExchangeState :=
  match op with
  | .toggle productId => toggleProductSelection productId st
  | .confirmClick userAccepts => handleConfirmClick userAccepts st
  | .startExchange => processExchangeStart st
  | .completeExchange => processExchangeComplete st

/-- Run a sequence of events. -/
def runOps (ops : List Op) (st : ExchangeState) : ExchangeState :=
  ops.foldl (fun s op => step op s) st

/-- A state the controller can actually be in: reached from `initState` of
some markup catalog by some sequence of events. -/
def Reachable (st : ExchangeState) : Prop :=
  ∃ catalog ops, st = runOps ops (initState catalog)

/-- `remaining` as pushed by `updatePointsDisplay`:
`this.availablePoints - totalSelected`. -/
def remainingPoints (st : ExchangeState) : Nat :=
  st.availablePoints - calculateTotalPoints st

/-!
## Raw initialization (`initProducts` over arbitrary markup)

`initProducts` reads `element.dataset.id!` and
`Number.parseInt(element.dataset.points!)` with compile-time-only non-null
assertions: at runtime a missing attribute yields `undefined` (embedded as
`none`), and `parseInt` of it yields `NaN` (also embedded as `none`).  No
statement in `initProducts` can throw: `Map.set` accepts an `undefined` key,
so the whole body is a total function. -/

/-- A scanned `.product-card` element: its `data-id` and `data-points`
attributes, each possibly absent. -/
structure ProductCard where
  id : Option String
  points : Option String
  deriving Repr, DecidableEq

/-- What `this.products.set(id, { id, points, selected: false })` actually
stores: `id` may be the JS value `undefined` (`none`) and `points` may be
`NaN` (`none`). -/
structure RawProduct where
  id : Option String
  points : Option Nat
  selected : Bool
  deriving Repr, DecidableEq

/-- `Number.parseInt(x)` for `x` either `undefined` (gives `NaN`, embedded
`none`) or a decimal digit string as in this page's markup (gives its value);
a non-numeric string also gives `NaN`. -/
def parseIntJs (s : Option String) : Option Nat :=
  s.bind String.toNat?

/-- JS `Map.set` on the raw map: overwrite the entry of an existing key
(including the key `undefined`), otherwise append. -/
def rawMapSet (ps : List RawProduct) (p : RawProduct) : List RawProduct :=
  if ps.any (fun q => q.id == p.id) then
    ps.map (fun q => if q.id == p.id then p else q)
  else
    ps ++ [p]

/-- Embeds `initProducts` over arbitrary markup: for every scanned card,
unconditionally `this.products.set(id, { id, points, selected: false })` —
there is no guard that skips a card with missing attributes. -/
def initProductsJs (cards : List ProductCard) : List RawProduct :=
  cards.foldl
    (fun ps card =>
      rawMapSet ps { id := card.id, points := parseIntJs card.points, selected := false })
    []

/-!
## The confirmation control as a nullable DOM reference

`init` runs `document.getElementById('confirmButton')`, which is `null` when
the control is absent; the cast `as HTMLButtonElement` does not check.
`updateConfirmButton` then assigns `this.confirmButton.disabled = !hasSelection`
with no guard, which on a `null` reference throws a `TypeError` (unlike the
listener wiring, which uses the guarded `this.confirmButton?.addEventListener`). -/

/-- The mutable bits of the confirm button the controller writes. -/
structure ConfirmButton where
  disabled : Bool
  deriving Repr, DecidableEq

/-- Embeds `updateConfirmButton` with the button reference made explicit:
`this.confirmButton.disabled = !hasSelection` throws on a `null` reference
(`Except.error`), otherwise stores `!hasSelection` (the `innerHTML` label it
also writes is display-only). -/
def updateConfirmButtonJs (confirmButton : Option ConfirmButton)
    (st : ExchangeState) : Except String ConfirmButton :=
  match confirmButton with
  | none => Except.error "TypeError: cannot set disabled of null"
  | some b => Except.ok { b with disabled := !(st.selectedProducts.length > 0) }

/-- Embeds `toggleProductSelection` with the nullable button reference made
explicit: the early return for an unknown id never touches the button; every
other path ends in the unguarded `updateConfirmButton` refresh, which throws
when the control is absent.  When the control is present this agrees with
`toggleProductSelection`. -/
def toggleProductSelectionJs (confirmButton : Option ConfirmButton)
    (productId : String) (st : ExchangeState) :
    Except String (ExchangeState × Option ConfirmButton) :=
  match findProduct st.products productId with
  | none => Except.ok (st, confirmButton)
  | some product =>
    let st1 := toggleBranch product productId st
    (updateConfirmButtonJs confirmButton st1).map (fun b => (st1, some b))

/-!
## Concrete scenarios

Markup catalogs and states used to evaluate the controller on the
spec's scenarios and on the failing inputs found below.
-/

/-- The spec's scenario catalog: item A costs 3000, item B costs 5000. -/
def catalogAB : List (String × Nat) := [("A", 3000), ("B", 5000)]

/-- A one-item catalog: item A costs 3000. -/
def catalogA3 : List (String × Nat) := [("A", 3000)]

/-- A two-item catalog whose items both fit in the budget together. -/
def catalogAB2 : List (String × Nat) := [("A", 3000), ("B", 1000)]

/-- A one-item catalog whose item alone exceeds the 7000 budget. -/
def catalogBig : List (String × Nat) := [("A", 8000)]

/-- Select A from `catalogAB`. -/
def c8Step1 : ExchangeState := toggleProductSelection "A" (initState catalogAB)

/-- Then try to select B (3000 + 5000 > 7000). -/
def c8Step2 : ExchangeState := toggleProductSelection "B" c8Step1

/-- Then deselect A. -/
def c8Step3 : ExchangeState := toggleProductSelection "A" c8Step2

/-- Then select B (0 + 5000 <= 7000). -/
def c8Step4 : ExchangeState := toggleProductSelection "B" c8Step3

/-- A exchange in flight: A (cost 3000) selected, `processExchange` invoked,
its deferred completion not yet fired. -/
def c1Pending : ExchangeState :=
  processExchangeStart (toggleProductSelection "A" (initState catalogA3))

/-- A toggle of B performed while an exchange of A is pending. -/
def c2Pending : ExchangeState :=
  toggleProductSelection "B"
    (processExchangeStart (toggleProductSelection "A" (initState catalogAB2)))

/-- A scanned item with neither a `data-id` nor a `data-points` attribute. -/
def malformedCard : ProductCard := { id := none, points := none }

/-!
## Helper lemmas
-/

/-- The points contributed by one id of the selection: the points of the
product found under it, `0` when the lookup misses (the fold skips it). -/
def lookupPoints (ps : List Product) (productId : String) : Nat :=
  match findProduct ps productId with
  | some product => product.points
  | none => 0

theorem foldl_points_eq (ps : List Product) (l : List String) (a : Nat) :
    (l.foldl (fun total productId =>
      match findProduct ps productId with
      | some product => total + product.points
      | none => total) a)
    = a + (l.map (lookupPoints ps)).sum := by
  induction l generalizing a with
  | nil => simp
  | cons hd tl ih =>
    simp only [List.foldl_cons, List.map_cons, List.sum_cons]
    rw [ih]
    cases h : findProduct ps hd
    · simp [lookupPoints, h]
    · simp [lookupPoints, h, Nat.add_assoc]

theorem calculateTotalPoints_eq (st : ExchangeState) :
    calculateTotalPoints st = (st.selectedProducts.map (lookupPoints st.products)).sum := by
  simpa [calculateTotalPoints] using foldl_points_eq st.products st.selectedProducts 0

theorem findProduct_setSelected (ps : List Product) (productId q : String) (b : Bool) :
    findProduct (setSelected ps productId b) q
    = (findProduct ps q).map
        (fun p => if p.id == productId then { p with selected := b } else p) := by
  unfold setSelected findProduct
  rw [List.find?_map]
  have hpred : ((fun p => p.id == q) ∘
      (fun p : Product => if p.id == productId then { p with selected := b } else p))
      = (fun p : Product => p.id == q) := by
    funext p
    by_cases h : (p.id == productId) <;> simp [Function.comp, h]
  rw [hpred]

theorem lookupPoints_setSelected (ps : List Product) (productId q : String) (b : Bool) :
    lookupPoints (setSelected ps productId b) q = lookupPoints ps q := by
  unfold lookupPoints
  rw [findProduct_setSelected]
  cases h : findProduct ps q with
  | none => rfl
  | some p =>
    simp only [Option.map_some']
    split <;> rfl

theorem ids_setSelected (ps : List Product) (productId : String) (b : Bool) :
    (setSelected ps productId b).map Product.id = ps.map Product.id := by
  unfold setSelected
  rw [List.map_map]
  apply List.map_congr_left
  intro p _
  simp only [Function.comp]
  split <;> rfl

theorem mem_mapSet {q p : Product} {ps : List Product} (h : q ∈ mapSet ps p) :
    q = p ∨ q ∈ ps := by
  unfold mapSet at h
  split at h
  · rcases List.mem_map.mp h with ⟨r, hr, hrq⟩
    by_cases hid : r.id == p.id
    · simp [hid] at hrq; exact Or.inl hrq.symm
    · simp [hid] at hrq; exact Or.inr (hrq ▸ hr)
  · rcases List.mem_append.mp h with h | h
    · exact Or.inr h
    · simp at h; exact Or.inl h

theorem sum_map_erase_le (f : String → Nat) (l : List String) (a : String) :
    ((l.erase a).map f).sum ≤ (l.map f).sum :=
  List.Sublist.sum_le_sum ((List.erase_sublist a l).map f) (fun _ _ => Nat.zero_le _)

theorem sum_map_of_mem (f : String → Nat) {l : List String} {a : String} (h : a ∈ l) :
    (l.map f).sum = f a + ((l.erase a).map f).sum := by
  have hperm : l.Perm (a :: l.erase a) := List.perm_cons_erase h
  simpa using (hperm.map f).sum_eq

theorem mem_setAdd {l : List String} {a q : String} :
    q ∈ setAdd l a ↔ q ∈ l ∨ q = a := by
  unfold setAdd
  split
  · constructor
    · exact Or.inl
    · rintro (hq | rfl)
      · exact hq
      · assumption
  · simp [List.mem_append]

/-!
## The controller invariant
-/

/-- The representation invariant of the controller: unique catalog keys,
a duplicate-free selection, agreement of the `SelectionSet` with the
per-product `selected` flags, and the budget bound. -/
structure StInv (st : ExchangeState) : Prop where
  keysNodup : (st.products.map Product.id).Nodup
  selNodup : st.selectedProducts.Nodup
  consistent : ∀ productId, productId ∈ st.selectedProducts ↔
    ∃ p, p ∈ st.products ∧ p.id = productId ∧ p.selected = true
  budget : calculateTotalPoints st ≤ st.availablePoints

theorem inv_updateConfirmButton (st : ExchangeState) (h : StInv st) :
    StInv (updateConfirmButton st) :=
  ⟨h.keysNodup, h.selNodup, h.consistent, h.budget⟩

theorem inv_deselect (st : ExchangeState) (productId : String) (h : StInv st) :
    StInv { st with
          selectedProducts := st.selectedProducts.erase productId,
          products := setSelected st.products productId false } := by
  refine ⟨?_, ?_, ?_, ?_⟩
  · show ((setSelected st.products productId false).map Product.id).Nodup
    rw [ids_setSelected]; exact h.keysNodup
  · exact h.selNodup.erase productId
  · intro q
    show q ∈ st.selectedProducts.erase productId ↔ _
    rw [h.selNodup.mem_erase_iff]
    constructor
    · rintro ⟨hne, hq⟩
      rcases (h.consistent q).mp hq with ⟨p, hp, hpid, hpsel⟩
      refine ⟨p, List.mem_map.mpr ⟨p, hp, if_neg ?_⟩, hpid, hpsel⟩
      intro hc
      exact hne ((hpid.symm.trans (eq_of_beq hc)) ▸ rfl)
    · rintro ⟨p', hp', hid', hsel'⟩
      rcases List.mem_map.mp hp' with ⟨p, hp, rfl⟩
      by_cases hc : (p.id == productId) = true
      · rw [if_pos hc] at hsel'
        exact absurd hsel' (by simp)
      · rw [if_neg hc] at hid' hsel'
        refine ⟨?_, (h.consistent q).mpr ⟨p, hp, hid', hsel'⟩⟩
        intro hqe
        exact hc (beq_iff_eq.mpr (hid' ▸ hqe ▸ rfl))
  · show calculateTotalPoints _ ≤ st.availablePoints
    rw [calculateTotalPoints_eq]
    have hfun : ∀ q ∈ st.selectedProducts.erase productId,
        lookupPoints (setSelected st.products productId false) q
          = lookupPoints st.products q :=
      fun q _ => lookupPoints_setSelected st.products productId q false
    rw [List.map_congr_left hfun]
    calc ((st.selectedProducts.erase productId).map (lookupPoints st.products)).sum
        ≤ (st.selectedProducts.map (lookupPoints st.products)).sum :=
          sum_map_erase_le _ _ _
      _ = calculateTotalPoints st := (calculateTotalPoints_eq st).symm
      _ ≤ st.availablePoints := h.budget

theorem inv_select (st : ExchangeState) (productId : String) (product : Product)
    (h : StInv st)
    (hf : findProduct st.products productId = some product)
    (hguard : calculateTotalPoints st + product.points ≤ st.availablePoints) :
    StInv { st with
          selectedProducts := setAdd st.selectedProducts productId,
          products := setSelected st.products productId true } := by
  have hf' : st.products.find? (fun p => p.id == productId) = some product := hf
  have hmem : product ∈ st.products := List.mem_of_find?_eq_some hf'
  have hbeq : (product.id == productId) = true := by
    have hb := List.find?_some hf'
    simpa using hb
  have hpid : product.id = productId := eq_of_beq hbeq
  refine ⟨?_, ?_, ?_, ?_⟩
  · show ((setSelected st.products productId true).map Product.id).Nodup
    rw [ids_setSelected]; exact h.keysNodup
  · show (setAdd st.selectedProducts productId).Nodup
    unfold setAdd
    split
    · exact h.selNodup
    · rename_i hno
      refine (List.perm_append_singleton _ _).nodup_iff.mpr ?_
      exact List.nodup_cons.mpr ⟨hno, h.selNodup⟩
  · intro q
    show q ∈ setAdd st.selectedProducts productId ↔ _
    rw [mem_setAdd]
    constructor
    · intro hq
      by_cases hqe : q = productId
      · subst hqe
        refine ⟨{ product with selected := true },
          List.mem_map.mpr ⟨product, hmem, if_pos (beq_iff_eq.mpr hpid)⟩, hpid, rfl⟩
      · rcases hq with hq | hq
        · rcases (h.consistent q).mp hq with ⟨p, hp, hpid', hpsel⟩
          refine ⟨p, List.mem_map.mpr ⟨p, hp, if_neg ?_⟩, hpid', hpsel⟩
          intro hc
          exact hqe ((hpid'.symm.trans (eq_of_beq hc)) ▸ rfl)
        · exact absurd hq hqe
    · rintro ⟨p', hp', hid', hsel'⟩
      rcases List.mem_map.mp hp' with ⟨p, hp, rfl⟩
      by_cases hc : (p.id == productId) = true
      · right
        rw [if_pos hc] at hid'
        exact hid' ▸ (eq_of_beq hc)
      · left
        rw [if_neg hc] at hid' hsel'
        exact (h.consistent q).mpr ⟨p, hp, hid', hsel'⟩
  · show calculateTotalPoints _ ≤ st.availablePoints
    rw [calculateTotalPoints_eq]
    have hfun : ∀ q ∈ setAdd st.selectedProducts productId,
        lookupPoints (setSelected st.products productId true) q
          = lookupPoints st.products q :=
      fun q _ => lookupPoints_setSelected st.products productId q true
    rw [List.map_congr_left hfun]
    have hlp : lookupPoints st.products productId = product.points := by
      unfold lookupPoints; rw [hf]
    unfold setAdd
    split
    · exact le_trans (le_of_eq (calculateTotalPoints_eq st).symm) h.budget
    · rw [List.map_append, List.sum_append]
      simp only [List.map_cons, List.map_nil, List.sum_cons, List.sum_nil]
      rw [hlp]
      have := calculateTotalPoints_eq st
      omega

theorem inv_processExchangeStart (st : ExchangeState) (h : StInv st) :
    StInv (processExchangeStart st) :=
  ⟨h.keysNodup, h.selNodup, h.consistent, h.budget⟩

theorem inv_handleConfirmClick (userAccepts : Bool) (st : ExchangeState) (h : StInv st) :
    StInv (handleConfirmClick userAccepts st) := by
  unfold handleConfirmClick
  split
  · exact h
  · split
    · exact inv_processExchangeStart st h
    · exact h

theorem inv_processExchangeComplete (st : ExchangeState) (h : StInv st) :
    StInv (processExchangeComplete st) := by
  refine ⟨?_, ?_, ?_, ?_⟩
  · show ((st.products.map (fun p => { p with selected := false })).map Product.id).Nodup
    rw [List.map_map]
    have hc : (Product.id ∘ fun p : Product => { p with selected := false }) = Product.id :=
      funext fun p => rfl
    rw [hc]
    exact h.keysNodup
  · show List.Nodup ([] : List String)
    exact List.nodup_nil
  · intro q
    constructor
    · intro hq
      exact absurd hq (List.not_mem_nil q)
    · rintro ⟨p', hp', _, hsel'⟩
      rcases List.mem_map.mp hp' with ⟨p, _, rfl⟩
      simp at hsel'
  · have hsel : (processExchangeComplete st).selectedProducts = [] := rfl
    rw [calculateTotalPoints_eq, hsel]
    simp

theorem inv_toggleProductSelection (productId : String) (st : ExchangeState) (h : StInv st) :
    StInv (toggleProductSelection productId st) := by
  unfold toggleProductSelection
  cases hf : findProduct st.products productId with
  | none => exact h
  | some product =>
    apply inv_updateConfirmButton
    unfold toggleBranch
    split
    · exact inv_deselect st productId h
    · split
      · rename_i hguard
        exact inv_select st productId product h hf hguard
      · exact h

theorem inv_step (op : Op) (st : ExchangeState) (h : StInv st) : StInv (step op st) := by
  cases op with
  | toggle productId => exact inv_toggleProductSelection productId st h
  | confirmClick userAccepts => exact inv_handleConfirmClick userAccepts st h
  | startExchange => exact inv_processExchangeStart st h
  | completeExchange => exact inv_processExchangeComplete st h

theorem inv_runOps (ops : List Op) (st : ExchangeState) (h : StInv st) :
    StInv (runOps ops st) := by
  induction ops generalizing st with
  | nil => exact h
  | cons op ops ih => exact ih (step op st) (inv_step op st h)

theorem keysNodup_mapSet (ps : List Product) (p : Product)
    (h : (ps.map Product.id).Nodup) : ((mapSet ps p).map Product.id).Nodup := by
  unfold mapSet
  split
  · have hids : (ps.map (fun q => if q.id == p.id then p else q)).map Product.id
        = ps.map Product.id := by
      rw [List.map_map]
      apply List.map_congr_left
      intro q _
      simp only [Function.comp]
      split
      · rename_i hc; exact (eq_of_beq hc).symm
      · rfl
    rw [hids]
    exact h
  · rename_i hno
    rw [List.map_append]
    have hpid : p.id ∉ ps.map Product.id := by
      intro hmem
      rcases List.mem_map.mp hmem with ⟨q, hq, hid⟩
      exact hno (List.any_eq_true.mpr ⟨q, hq, beq_iff_eq.mpr hid⟩)
    simp only [List.map_cons, List.map_nil]
    exact (List.perm_append_singleton _ _).nodup_iff.mpr (List.nodup_cons.mpr ⟨hpid, h⟩)

theorem selectedFalse_mapSet (ps : List Product) (p : Product)
    (hps : ∀ q ∈ ps, q.selected = false) (hp : p.selected = false) :
    ∀ q ∈ mapSet ps p, q.selected = false := by
  intro q hq
  rcases mem_mapSet hq with rfl | hq'
  · exact hp
  · exact hps q hq'

theorem initProducts_props (catalog : List (String × Nat)) :
    ∀ ps : List Product, (ps.map Product.id).Nodup → (∀ q ∈ ps, q.selected = false) →
      ((catalog.foldl (fun ps c => mapSet ps { id := c.1, points := c.2, selected := false })
          ps).map Product.id).Nodup ∧
      (∀ q ∈ catalog.foldl (fun ps c => mapSet ps { id := c.1, points := c.2, selected := false })
          ps, q.selected = false) := by
  induction catalog with
  | nil => intro ps h1 h2; exact ⟨h1, h2⟩
  | cons c cs ih =>
    intro ps h1 h2
    exact ih _ (keysNodup_mapSet _ _ h1) (selectedFalse_mapSet _ _ h2 rfl)

theorem inv_initState (catalog : List (String × Nat)) : StInv (initState catalog) := by
  obtain ⟨hnd, hfalse⟩ :=
    initProducts_props catalog [] (by simp) (by intro q hq; exact absurd hq (List.not_mem_nil q))
  refine ⟨hnd, List.nodup_nil, ?_, ?_⟩
  · intro q
    constructor
    · intro hq
      exact absurd hq (List.not_mem_nil q)
    · rintro ⟨p, hp, _, hsel⟩
      rw [hfalse p hp] at hsel
      cases hsel
  · show calculateTotalPoints _ ≤ _
    rw [calculateTotalPoints_eq]
    exact Nat.zero_le _

theorem reachable_inv (st : ExchangeState) (h : Reachable st) : StInv st := by
  rcases h with ⟨catalog, ops, rfl⟩
  exact inv_runOps ops (initState catalog) (inv_initState catalog)

theorem availablePoints_updateConfirmButton (st : ExchangeState) :
    (updateConfirmButton st).availablePoints = st.availablePoints := rfl

theorem availablePoints_toggle (productId : String) (st : ExchangeState) :
    (toggleProductSelection productId st).availablePoints = st.availablePoints := by
  unfold toggleProductSelection
  cases hf : findProduct st.products productId
  · rfl
  · rw [availablePoints_updateConfirmButton]
    unfold toggleBranch
    split
    · rfl
    · split <;> rfl

theorem availablePoints_handleConfirmClick (userAccepts : Bool) (st : ExchangeState) :
    (handleConfirmClick userAccepts st).availablePoints = st.availablePoints := by
  unfold handleConfirmClick
  split
  · rfl
  · split <;> rfl

theorem availablePoints_complete (st : ExchangeState) :
    (processExchangeComplete st).availablePoints = st.availablePoints := rfl

theorem availablePoints_step (op : Op) (st : ExchangeState) :
    (step op st).availablePoints = st.availablePoints := by
  cases op with
  | toggle productId => exact availablePoints_toggle productId st
  | confirmClick userAccepts => exact availablePoints_handleConfirmClick userAccepts st
  | startExchange => rfl
  | completeExchange => exact availablePoints_complete st

theorem availablePoints_runOps (ops : List Op) (st : ExchangeState) :
    (runOps ops st).availablePoints = st.availablePoints := by
  induction ops generalizing st with
  | nil => rfl
  | cons op ops ih => exact (ih (step op st)).trans (availablePoints_step op st)


theorem setSelected_setSelected (ps : List Product) (productId : String) (b c : Bool) :
    setSelected (setSelected ps productId b) productId c = setSelected ps productId c := by
  unfold setSelected
  rw [List.map_map]
  apply List.map_congr_left
  intro p _
  simp only [Function.comp]
  by_cases h : (p.id == productId) = true
  · rw [if_pos h]
    have hb : ({ p with selected := b } : Product).id = p.id := rfl
    rw [if_pos (hb ▸ h), if_pos h]
  · rw [if_neg h, if_neg h]

theorem setSelected_eq_self (ps : List Product) (productId : String) (b : Bool)
    (h : ∀ q ∈ ps, q.id = productId → q.selected = b) :
    setSelected ps productId b = ps := by
  unfold setSelected
  have hcg : ps.map (fun q => if q.id == productId then { q with selected := b } else q)
      = ps.map id := by
    apply List.map_congr_left
    intro q hq
    by_cases hc : (q.id == productId) = true
    · rw [if_pos hc]
      have hsb : q.selected = b := h q hq (eq_of_beq hc)
      cases q
      simp only at hsb
      simp [hsb]
    · rw [if_neg hc]
      rfl
  rw [hcg, List.map_id]

theorem toggle_twice_of_selected (st : ExchangeState) (productId : String)
    (product : Product) (hinv : StInv st)
    (hf : findProduct st.products productId = some product)
    (hsel : product.selected = true) :
    (toggleProductSelection productId (toggleProductSelection productId st)).products
      = st.products ∧
    (toggleProductSelection productId
        (toggleProductSelection productId st)).selectedProducts.Perm st.selectedProducts := by
  have hf' : st.products.find? (fun p => p.id == productId) = some product := hf
  have hmem : product ∈ st.products := List.mem_of_find?_eq_some hf'
  have hbeq : (product.id == productId) = true := by
    have hb := List.find?_some hf'
    simpa using hb
  have hpid : product.id = productId := eq_of_beq hbeq
  have hpidmem : productId ∈ st.selectedProducts :=
    (hinv.consistent productId).mpr ⟨product, hmem, hpid, hsel⟩
  have h1a : toggleProductSelection productId st
      = updateConfirmButton (toggleBranch product productId st) := by
    unfold toggleProductSelection
    rw [hf]
  have h1b : toggleBranch product productId st
      = { st with
          selectedProducts := st.selectedProducts.erase productId,
          products := setSelected st.products productId false } := by
    unfold toggleBranch
    rw [if_pos hsel]
  have hf2 : findProduct
      (updateConfirmButton
        { st with
          selectedProducts := st.selectedProducts.erase productId,
          products := setSelected st.products productId false }).products productId
      = some { product with selected := false } := by
    show findProduct (setSelected st.products productId false) productId = _
    rw [findProduct_setSelected, hf]
    simp only [Option.map_some']
    rw [if_pos hbeq]
  have hsum : (st.selectedProducts.map (lookupPoints st.products)).sum
      = product.points
        + ((st.selectedProducts.erase productId).map (lookupPoints st.products)).sum := by
    have hlp : lookupPoints st.products productId = product.points := by
      unfold lookupPoints
      rw [hf]
    rw [sum_map_of_mem (lookupPoints st.products) hpidmem, hlp]
  have hcalc1 : calculateTotalPoints
      (updateConfirmButton
        { st with
          selectedProducts := st.selectedProducts.erase productId,
          products := setSelected st.products productId false })
      = ((st.selectedProducts.erase productId).map (lookupPoints st.products)).sum := by
    rw [calculateTotalPoints_eq]
    show ((st.selectedProducts.erase productId).map
        (lookupPoints (setSelected st.products productId false))).sum = _
    rw [List.map_congr_left (fun q _ => lookupPoints_setSelected st.products productId q false)]
  have hguard : calculateTotalPoints
        (updateConfirmButton
          { st with
            selectedProducts := st.selectedProducts.erase productId,
            products := setSelected st.products productId false })
        + ({ product with selected := false } : Product).points
      ≤ (updateConfirmButton
          { st with
            selectedProducts := st.selectedProducts.erase productId,
            products := setSelected st.products productId false }).availablePoints := by
    show _ + product.points ≤ st.availablePoints
    rw [hcalc1]
    have hb := hinv.budget
    rw [calculateTotalPoints_eq, hsum] at hb
    omega
  have h2a : toggleProductSelection productId
      (updateConfirmButton
        { st with
          selectedProducts := st.selectedProducts.erase productId,
          products := setSelected st.products productId false })
      = updateConfirmButton (toggleBranch { product with selected := false } productId
          (updateConfirmButton
            { st with
              selectedProducts := st.selectedProducts.erase productId,
              products := setSelected st.products productId false })) := by
    unfold toggleProductSelection
    rw [hf2]
  have h2b : toggleBranch { product with selected := false } productId
      (updateConfirmButton
        { st with
          selectedProducts := st.selectedProducts.erase productId,
          products := setSelected st.products productId false })
      = { (updateConfirmButton
            { st with
              selectedProducts := st.selectedProducts.erase productId,
              products := setSelected st.products productId false }) with
          selectedProducts := setAdd (updateConfirmButton
            { st with
              selectedProducts := st.selectedProducts.erase productId,
              products := setSelected st.products productId false }).selectedProducts productId,
          products := setSelected (updateConfirmButton
            { st with
              selectedProducts := st.selectedProducts.erase productId,
              products := setSelected st.products productId false }).products productId true } := by
    unfold toggleBranch
    rw [if_neg (by simp), if_pos hguard]
  rw [h1a, h1b, h2a, h2b]
  constructor
  · show setSelected (setSelected st.products productId false) productId true = st.products
    rw [setSelected_setSelected]
    apply setSelected_eq_self
    intro q hq hqid
    have hqp : q = product :=
      List.inj_on_of_nodup_map hinv.keysNodup hq hmem (hqid.trans hpid.symm)
    rw [hqp, hsel]
  · show (setAdd (st.selectedProducts.erase productId) productId).Perm st.selectedProducts
    have hnotmem : productId ∉ st.selectedProducts.erase productId := by
      intro hmem'
      rcases (hinv.selNodup.mem_erase_iff).mp hmem' with ⟨hne, _⟩
      exact hne rfl
    unfold setAdd
    rw [if_neg hnotmem]
    exact (List.perm_append_singleton _ _).trans (List.perm_cons_erase hpidmem).symm

theorem rawMapSet_key_self (ps : List RawProduct) (p : RawProduct) :
    ∃ rp, rp ∈ rawMapSet ps p ∧ rp.id = p.id := by
  unfold rawMapSet
  split
  · rename_i hany
    rcases List.any_eq_true.mp hany with ⟨q, hq, hbeq⟩
    exact ⟨p, List.mem_map.mpr ⟨q, hq, by rw [if_pos hbeq]⟩, rfl⟩
  · exact ⟨p, List.mem_append.mpr (Or.inr (List.mem_singleton.mpr rfl)), rfl⟩

theorem rawMapSet_key_mono (ps : List RawProduct) (p : RawProduct) (k : Option String)
    (h : ∃ rp, rp ∈ ps ∧ rp.id = k) :
    ∃ rp, rp ∈ rawMapSet ps p ∧ rp.id = k := by
  rcases h with ⟨rp, hrp, hk⟩
  unfold rawMapSet
  split
  · by_cases hc : (rp.id == p.id) = true
    · refine ⟨p, List.mem_map.mpr ⟨rp, hrp, by rw [if_pos hc]⟩, ?_⟩
      rw [← eq_of_beq hc, hk]
    · exact ⟨rp, List.mem_map.mpr ⟨rp, hrp, by rw [if_neg hc]⟩, hk⟩
  · exact ⟨rp, List.mem_append.mpr (Or.inl hrp), hk⟩

theorem initProductsJs_fold_key_mono (cards : List ProductCard) (k : Option String) :
    ∀ ps : List RawProduct, (∃ rp, rp ∈ ps ∧ rp.id = k) →
      ∃ rp, rp ∈ cards.foldl
        (fun ps card =>
          rawMapSet ps { id := card.id, points := parseIntJs card.points, selected := false })
        ps ∧ rp.id = k := by
  induction cards with
  | nil => intro ps h; exact h
  | cons c cs ih => intro ps h; exact ih _ (rawMapSet_key_mono ps _ k h)

theorem initProductsJs_fold_key (cards : List ProductCard) (card : ProductCard)
    (h : card ∈ cards) :
    ∀ ps : List RawProduct,
      ∃ rp, rp ∈ cards.foldl
        (fun ps card =>
          rawMapSet ps { id := card.id, points := parseIntJs card.points, selected := false })
        ps ∧ rp.id = card.id := by
  induction cards with
  | nil => exact absurd h (List.not_mem_nil card)
  | cons c cs ih =>
    intro ps
    rcases List.mem_cons.mp h with rfl | hmem
    · exact initProductsJs_fold_key_mono cs card.id _
        (rawMapSet_key_self ps { id := card.id, points := parseIntJs card.points, selected := false })
    · exact ih hmem _

/-!
## Claim theorems
-/

/-- C1: the spec says the deferred completion of `processExchange` leaves
`availablePoints` equal to its value when the completion runs minus the total
cost of the then-selected products (here 7000 - 3000 = 4000).  The code clears
`selectedProducts` before executing `availablePoints -= calculateTotalPoints()`,
so it always subtracts 0: on the concrete pending exchange of A (cost 3000)
the budget stays 7000, and in general completion never changes
`availablePoints` at all.  The reset of the selection and of the flags does
happen as claimed. -/
theorem c1_exchange_completion_never_deducts :
    calculateTotalPoints c1Pending = 3000 ∧
    c1Pending.availablePoints = 7000 ∧
    (processExchangeComplete c1Pending).selectedProducts = [] ∧
    (processExchangeComplete c1Pending).products
      = [{ id := "A", points := 3000, selected := false }] ∧
    (processExchangeComplete c1Pending).availablePoints = 7000 ∧
    (∀ st : ExchangeState,
      (processExchangeComplete st).availablePoints = st.availablePoints) :=
  ⟨by decide, by decide, by decide, by decide, by decide,
   fun st => availablePoints_complete st⟩

/-- C2: the claim says the confirmation control stays disabled from the moment
`processExchange` runs until its deferred completion fires, regardless of
intervening `toggleSelection` operations.  In the code a toggle during the
pending window re-runs `updateConfirmButton`, which recomputes
`disabled = !hasSelection`: with A still selected, toggling B re-enables the
control while the exchange is pending, and a confirm click then passes the
`!disabled` guard and starts a second exchange. -/
theorem c2_toggle_reenables_confirm_while_pending :
    c2Pending.pendingExchange = true ∧
    c2Pending.confirmDisabled = false ∧
    handleConfirmClick true c2Pending = processExchangeStart c2Pending :=
  ⟨by decide, by decide, by decide⟩

/-- C3: for every markup catalog (costs are non-negative by type) and every
sequence of card clicks starting from the initial state, the invariant
`sum(cost of selected) <= availablePoints` holds after the sequence; since
the statement quantifies over all click sequences, it holds after every
prefix, i.e. after every operation. -/
theorem c3_budget_invariant_toggles (catalog : List (String × Nat)) (clicks : List String) :
    calculateTotalPoints (runOps (clicks.map Op.toggle) (initState catalog))
      ≤ (runOps (clicks.map Op.toggle) (initState catalog)).availablePoints :=
  (inv_runOps (clicks.map Op.toggle) (initState catalog) (inv_initState catalog)).budget

/-- C4 (counterexample): a scanned item missing its identifier and cost
attributes is not skipped: `initProducts` still constructs a catalog entry for
it (keyed by the JS value `undefined`, with `NaN` cost), so the catalog has
one entry where the claim requires none. -/
theorem c4_malformed_item_not_skipped :
    initProductsJs [malformedCard]
      = [{ id := none, points := none, selected := false }] ∧
    (initProductsJs [malformedCard]).length = 1 :=
  ⟨by decide, by decide⟩

/-- C4 (amended): initialization indeed never fails or crashes (every JS
statement in `initProducts` is total on these inputs), but a malformed item is
not skipped: every scanned item, well-formed or not, yields a catalog entry
under its possibly-undefined identifier. -/
theorem c4_no_item_skipped (cards : List ProductCard) (card : ProductCard)
    (h : card ∈ cards) :
    ∃ rp, rp ∈ initProductsJs cards ∧ rp.id = card.id :=
  initProductsJs_fold_key cards card h []

/-- C4 (witness): the malformed card itself gets a catalog entry. -/
theorem c4_no_item_skipped_witness :
    ∃ rp, rp ∈ initProductsJs [malformedCard] ∧ rp.id = malformedCard.id :=
  c4_no_item_skipped [malformedCard] malformedCard (List.mem_singleton.mpr rfl)

/-- C5: the claim says operations touching an absent confirmation control are
guarded no-ops.  In the code only the listener wiring is guarded
(`confirmButton?.addEventListener`); the refresh `updateConfirmButton` assigns
`this.confirmButton.disabled` unguarded, which on a `null` reference throws a
`TypeError` — in every state, and in particular in the refresh that ends every
toggle of a known product. -/
theorem c5_refresh_crashes_without_button :
    (∀ st : ExchangeState,
      updateConfirmButtonJs none st
        = Except.error "TypeError: cannot set disabled of null") ∧
    toggleProductSelectionJs none "A" (initState catalogA3)
      = Except.error "TypeError: cannot set disabled of null" :=
  ⟨fun _ => rfl, rfl⟩

/-- C6: a selection attempt rejected by the budget guard
(`availablePoints < currentTotal + product.points`) leaves the selection set,
all product flags, and `availablePoints` unchanged: the rejection branch only
emits transient display feedback. -/
theorem c6_rejected_selection_mutates_nothing (st : ExchangeState) (productId : String)
    (product : Product)
    (hf : findProduct st.products productId = some product)
    (hsel : product.selected = false)
    (hover : st.availablePoints < calculateTotalPoints st + product.points) :
    (toggleProductSelection productId st).selectedProducts = st.selectedProducts ∧
    (toggleProductSelection productId st).products = st.products ∧
    (toggleProductSelection productId st).availablePoints = st.availablePoints := by
  have h1a : toggleProductSelection productId st
      = updateConfirmButton (toggleBranch product productId st) := by
    unfold toggleProductSelection
    rw [hf]
  have h1b : toggleBranch product productId st = st := by
    unfold toggleBranch
    rw [if_neg (by rw [hsel]; simp), if_neg (not_le.mpr hover)]
  rw [h1a, h1b]
  exact ⟨rfl, rfl, rfl⟩

/-- C6 (witness): selecting the 8000-point item on the fresh 7000 budget is
rejected without mutating anything. -/
theorem c6_rejected_selection_mutates_nothing_witness :
    (toggleProductSelection "A" (initState catalogBig)).selectedProducts
      = (initState catalogBig).selectedProducts ∧
    (toggleProductSelection "A" (initState catalogBig)).products
      = (initState catalogBig).products ∧
    (toggleProductSelection "A" (initState catalogBig)).availablePoints
      = (initState catalogBig).availablePoints :=
  c6_rejected_selection_mutates_nothing (initState catalogBig) "A"
    { id := "A", points := 8000, selected := false } (by decide) rfl (by decide)

/-- C7: in every reachable state the selection set and the per-product flags
agree: an identifier is in the set exactly when a catalog product with that
identifier has `selected = true`. -/
theorem c7_selection_consistency (st : ExchangeState) (productId : String)
    (h : Reachable st) :
    productId ∈ st.selectedProducts ↔
      ∃ p, p ∈ st.products ∧ p.id = productId ∧ p.selected = true :=
  (reachable_inv st h).consistent productId

/-- C7 (witness): consistency at the reachable state with A selected. -/
theorem c7_selection_consistency_witness :
    "A" ∈ (runOps [Op.toggle "A"] (initState catalogA3)).selectedProducts ↔
      ∃ p, p ∈ (runOps [Op.toggle "A"] (initState catalogA3)).products ∧
        p.id = "A" ∧ p.selected = true :=
  c7_selection_consistency (runOps [Op.toggle "A"] (initState catalogA3)) "A"
    ⟨catalogA3, [Op.toggle "A"], rfl⟩

/-- C8: the spec's scenario on budget 7000: selecting A (3000) succeeds with
remaining 4000; selecting B (5000) is rejected with remaining unchanged at
4000; deselecting A restores remaining 7000; selecting B then succeeds with
remaining 2000. -/
theorem c8_spec_scenario :
    c8Step1.selectedProducts = ["A"] ∧ remainingPoints c8Step1 = 4000 ∧
    c8Step2.selectedProducts = ["A"] ∧ remainingPoints c8Step2 = 4000 ∧
    c8Step3.selectedProducts = [] ∧ remainingPoints c8Step3 = 7000 ∧
    c8Step4.selectedProducts = ["B"] ∧ remainingPoints c8Step4 = 2000 :=
  ⟨by decide, by decide, by decide, by decide, by decide, by decide, by decide, by decide⟩

/-- C9: in every reachable state, toggling a currently selected product twice
restores the per-product flags exactly and restores the selection set as a
set (a JS `Set` value is its membership; the deselect-then-reselect pair moves
the id to the end of the insertion order, so the lists are permutations). -/
theorem c9_toggle_twice_restores (st : ExchangeState) (productId : String)
    (product : Product) (h : Reachable st)
    (hf : findProduct st.products productId = some product)
    (hsel : product.selected = true) :
    (toggleProductSelection productId (toggleProductSelection productId st)).products
      = st.products ∧
    (toggleProductSelection productId
        (toggleProductSelection productId st)).selectedProducts.Perm st.selectedProducts :=
  toggle_twice_of_selected st productId product (reachable_inv st h) hf hsel

/-- C9 (witness): toggling A twice from the reachable state with A selected. -/
theorem c9_toggle_twice_restores_witness :
    (toggleProductSelection "A" (toggleProductSelection "A"
        (runOps [Op.toggle "A"] (initState catalogA3)))).products
      = (runOps [Op.toggle "A"] (initState catalogA3)).products ∧
    (toggleProductSelection "A" (toggleProductSelection "A"
        (runOps [Op.toggle "A"] (initState catalogA3)))).selectedProducts.Perm
      (runOps [Op.toggle "A"] (initState catalogA3)).selectedProducts :=
  c9_toggle_twice_restores (runOps [Op.toggle "A"] (initState catalogA3)) "A"
    { id := "A", points := 3000, selected := true }
    ⟨catalogA3, [Op.toggle "A"], rfl⟩ (by decide) rfl

/-- C10: `availablePoints` never increases: every single event handler leaves
it less than or equal to its previous value, and along every event sequence
from the initial state it stays at most the initial 7000 (in this code it in
fact never changes at all, because of the C1 ordering slip). -/
theorem c10_points_never_increase :
    (∀ (op : Op) (st : ExchangeState),
      (step op st).availablePoints ≤ st.availablePoints) ∧
    (∀ (catalog : List (String × Nat)) (ops : List Op),
      (runOps ops (initState catalog)).availablePoints ≤ 7000) :=
  ⟨fun op st => le_of_eq (availablePoints_step op st),
   fun catalog ops => le_of_eq (availablePoints_runOps ops (initState catalog))⟩
